import Mathlib

/-!
Shallow embedding of `reqbuilder.go` (package `reqbuilder`,
repository zuzi90/reqbuilder-), a test helper that builds HTTP requests,
merges server cookies with caller cookies, and decodes compressed
response bodies.

Modelling conventions:
* Go byte slices are `List Nat`.
* An `http.Cookie` is modelled by its `Name` and `Value` fields; the
  remaining attributes are never inspected by the source code.
* Go's `map[string]*http.Cookie` is modelled as an association list in
  which assignment removes any previous binding of the key and appends
  the new one.  A Go map has no observable order, so one canonical order
  is chosen; every statement about merged cookie lists below is
  order-insensitive.
* `http.Header` (used via `Set` and `Get`) is modelled the same way, as
  a list of key/value pairs where `Set` replaces and `Get` returns the
  stored value or `""` when the key is absent.  Key canonicalisation is
  dropped: the source only ever uses literal canonical header names.
* The external compression libraries (`compress/gzip`,
  `andybalholm/brotli`, `klauspost/compress/zstd`,
  `klauspost/compress/flate`) are not part of this repository; they are
  modelled as parameters (`Decoders`), while the `Content-Encoding`
  dispatch of `ReadResponseBody` itself is translated from the source.
-/

/-- Model of Go's `http.Cookie`, restricted to the fields the source reads. -/
structure Cookie where
  name : String
  value : String
deriving DecidableEq, Repr

/-- The cookie names of a list of cookies. -/
def names (l : List Cookie) : List String :=
  l.map Cookie.name

/-- Go map assignment `cookieMap[c.Name] = c`: any previous binding of
`c.name` is dropped and `c` becomes the binding. -/
def insertCookie (m : List Cookie) (c : Cookie) : List Cookie :=
  m.filter (fun x => x.name != c.name) ++ [c]

/-- The guarded insertion of the caller-cookie loop
(`if _, exists := cookieMap[c.Name]; !exists { cookieMap[c.Name] = c }`):
`c` is added only when its name is absent. -/
def addIfAbsent (m : List Cookie) (c : Cookie) : List Cookie :=
  if m.any (fun x => x.name == c.name) then m else m ++ [c]

/-- Lookup in the cookie map: the binding of name `n`, if any. -/
def findCookie (m : List Cookie) (n : String) : Option Cookie :=
  m.find? (fun c => c.name == n)

/-- The cookie-merge block that `Request`, `MultipartRequest` and
`RequestWithoutBody` all repeat verbatim (reqbuilder.go lines 71-90,
154-177, 221-240): build `cookieMap` from the server response cookies,
then — only when the caller list is non-empty, matching the
`cookies != nil && len(cookies) != 0` guard — add the caller cookies
whose names are still absent, and return the map's bindings. -/
def mergeCookies (serverCookies callerCookies : List Cookie) : List Cookie :=
  let m := serverCookies.foldl insertCookie []
  if callerCookies ≠ [] then callerCookies.foldl addIfAbsent m else m

/-- Model of `http.Header` as used by the source: `Set` replaces the
binding of a key, `Get` returns the stored value or `""`. -/
def setHeader (hs : List (String × String)) (k v : String) :
    List (String × String) :=
  hs.filter (fun p => p.1 != k) ++ [(k, v)]

/-- `Header.Get`: the value bound to `k`, or `""` when `k` is absent. -/
def headerValue (hs : List (String × String)) (k : String) : String :=
  match hs.find? (fun p => p.1 == k) with
  | some p => p.2
  | none => ""

/-- The `for k, v := range headers { req.Header.Set(k, v) }` loop shared
by every builder method.  The surrounding `if len(headers) != 0` check
in the source is a no-op (the loop over an empty map does nothing) and
is absorbed into the fold. -/
def applyHeaders (hs : List (String × String))
    (extra : List (String × String)) : List (String × String) :=
  extra.foldl (fun h kv => setHeader h kv.1 kv.2) hs

/-- The outgoing `http.Request`, restricted to what the source writes:
method, URL (`host+endpoint`, unescaped), optional body bytes, the
header map, and the sequence of cookies attached via `AddCookie`. -/
structure Request where
  method : String
  url : String
  body : Option (List Nat)
  headers : List (String × String)
  cookies : List Cookie
deriving DecidableEq, Repr

/-- The `http.Response` surface the source reads: headers
(`Content-Encoding` lookup), the body bytes, and the parsed `Set-Cookie`
cookies returned by `response.Cookies()`. -/
structure Response where
  headers : List (String × String)
  body : List Nat
  cookies : List Cookie
deriving DecidableEq, Repr

/-- The request constructed by `Builder.Request` (reqbuilder.go lines
45-63): `http.NewRequestWithContext(ctx, method, host+endpoint,
bytes.NewReader(reqBody))`, then the extra-header loop, then — only when
`cookies != nil && len(cookies) != 0` — `Header.Set("Authorization",
authorization)` followed by `AddCookie` for each cookie. -/
def requestReq (method host endpoint : String) (reqBody : List Nat)
    (cookies : List Cookie) (headers : List (String × String))
    (authorization : String) : Request :=
  let req : Request :=
    { method := method, url := host ++ endpoint, body := some reqBody,
      headers := applyHeaders [] headers, cookies := [] }
  if cookies ≠ [] then
    { req with
      headers := setHeader req.headers "Authorization" authorization,
      cookies := cookies }
  else req

/-- `Builder.Request` after the transport call: the response produced by
`client.Do` is returned together with the merged cookies (lines 65-90).
The transport itself is external, so the server's response is a
parameter. -/
def requestOp (method host endpoint : String) (reqBody : List Nat)
    (cookies : List Cookie) (headers : List (String × String))
    (authorization : String) (resp : Response) : Response × List Cookie :=
  let _ := requestReq method host endpoint reqBody cookies headers authorization
  (resp, mergeCookies resp.cookies cookies)

/-- `multipart.Writer.FormDataContentType()` for the generated boundary
(the boundary is random in Go, hence a parameter; it never needs
quoting for the alphabet Go draws it from). -/
def formDataContentType (boundary : String) : String :=
  "multipart/form-data; boundary=" ++ boundary

/-- Byte view of a string (the source's payloads are ASCII; code points
stand in for UTF-8 bytes). -/
def strBytes (s : String) : List Nat :=
  s.data.map Char.toNat

/-- The single-field `multipart/form-data` body produced by
`writer.WriteField(formData, string(requestBody))` followed by
`writer.Close()`. -/
def multipartBody (boundary formData : String) (requestBody : List Nat) :
    List Nat :=
  strBytes ("--" ++ boundary ++ "\r\nContent-Disposition: form-data; name=\""
      ++ formData ++ "\"\r\n\r\n")
    ++ requestBody
    ++ strBytes ("\r\n--" ++ boundary ++ "--\r\n")

/-- The request constructed by `Builder.MultipartRequest` (lines
112-149): multipart body, extra-header loop, then
`Header.Set("Content-Type", writer.FormDataContentType())`, then the
cookie/authorization block. -/
def multipartReq (method host endpoint : String) (requestBody : List Nat)
    (formData : String) (cookies : List Cookie)
    (headers : List (String × String)) (authorization : String)
    (boundary : String) : Request :=
  let req : Request :=
    { method := method, url := host ++ endpoint,
      body := some (multipartBody boundary formData requestBody),
      headers := applyHeaders [] headers, cookies := [] }
  let req :=
    { req with
      headers := setHeader req.headers "Content-Type"
        (formDataContentType boundary) }
  if cookies ≠ [] then
    { req with
      headers := setHeader req.headers "Authorization" authorization,
      cookies := cookies }
  else req

/-- `Builder.MultipartRequest` after the transport call (lines 151-177):
response plus merged cookies, with the same merge block as `Request`. -/
def multipartOp (method host endpoint : String) (requestBody : List Nat)
    (formData : String) (cookies : List Cookie)
    (headers : List (String × String)) (authorization : String)
    (boundary : String) (resp : Response) : Response × List Cookie :=
  let _ := multipartReq method host endpoint requestBody formData cookies
    headers authorization boundary
  (resp, mergeCookies resp.cookies cookies)

/-- The request constructed by `Builder.RequestWithoutBody` (lines
194-212): `http.NewRequestWithContext(ctx, method, host+endpoint, nil)`
— no body — then the extra-header loop and the cookie/authorization
block. -/
def requestWithoutBodyReq (method host endpoint : String)
    (headers : List (String × String)) (cookies : List Cookie)
    (authorization : String) : Request :=
  let req : Request :=
    { method := method, url := host ++ endpoint, body := none,
      headers := applyHeaders [] headers, cookies := [] }
  if cookies ≠ [] then
    { req with
      headers := setHeader req.headers "Authorization" authorization,
      cookies := cookies }
  else req

/-- `Builder.RequestWithoutBody` after the transport call (lines
214-240): response plus merged cookies. -/
def requestWithoutBodyOp (method host endpoint : String)
    (headers : List (String × String)) (cookies : List Cookie)
    (authorization : String) (resp : Response) : Response × List Cookie :=
  let _ := requestWithoutBodyReq method host endpoint headers cookies
    authorization
  (resp, mergeCookies resp.cookies cookies)

/-- The request constructed by `Builder.SignIn` (lines 255-266): body
from `requestBody`, the extra-header loop, and nothing else — no cookie
attachment and no `Authorization` header. -/
def signInReq (method host endpoint : String) (requestBody : List Nat)
    (headers : List (String × String)) : Request :=
  { method := method, url := host ++ endpoint, body := some requestBody,
    headers := applyHeaders [] headers, cookies := [] }

/-- `Builder.SignIn` after the transport call (lines 268-274): the
response together with `response.Cookies()` — returned directly, with no
merge. -/
def signInOp (method host endpoint : String) (requestBody : List Nat)
    (headers : List (String × String)) (resp : Response) :
    Response × List Cookie :=
  let _ := signInReq method host endpoint requestBody headers
  (resp, resp.cookies)

/-- The external decompression libraries, as `ReadResponseBody` uses
them.  For gzip and zstd the outer `Except` is the error return of
`gzip.NewReader` / `zstd.NewReader` (the source returns `nil, err` on
it) and the inner `Except` is the result of `io.ReadAll` on the
constructed reader; `brotli.NewReader` and `flate.NewReader` cannot fail
at construction, so only the `io.ReadAll` result remains. -/
structure Decoders where
  gzipNew : List Nat → Except String (Except String (List Nat))
  brotliRead : List Nat → Except String (List Nat)
  zstdNew : List Nat → Except String (Except String (List Nat))
  flateRead : List Nat → Except String (List Nat)

/-- `Builder.ReadResponseBody` (lines 278-309), instrumented with the
decoder resources it constructs and the ones it closes before
returning.  The dispatch on `response.Header.Get("Content-Encoding")`
is translated from the source:
* `"gzip"`: `gzip.NewReader`; on error `return nil, err` (the deferred
  close is not yet registered); on success `defer reader.Close()` and
  `io.ReadAll`.
* `"br"`: wrap `brotli.NewReader` and the response body in a
  `BrotliReadCloser` and `io.ReadAll` it — the source registers no
  close for this reader.
* `"zstd"`: `zstd.NewReader`; on error `return nil, err`; on success
  `defer decoder.Close()` and `io.ReadAll`.
* `"deflate"`: `flate.NewReader`, `defer reader.Close()`, `io.ReadAll`.
* anything else (including an absent header, for which `Get` yields
  `""`): `io.ReadAll(response.Body)` unchanged. -/
def readResponseBodyRun (D : Decoders) (resp : Response) :
    Except String (List Nat) × List String × List String :=
  if headerValue resp.headers "Content-Encoding" = "gzip" then
    match D.gzipNew resp.body with
    | Except.error e => (Except.error e, [], [])
    | Except.ok r => (r, ["gzip-reader"], ["gzip-reader"])
  else if headerValue resp.headers "Content-Encoding" = "br" then
    (D.brotliRead resp.body, ["brotli-reader"], [])
  else if headerValue resp.headers "Content-Encoding" = "zstd" then
    match D.zstdNew resp.body with
    | Except.error e => (Except.error e, [], [])
    | Except.ok r => (r, ["zstd-decoder"], ["zstd-decoder"])
  else if headerValue resp.headers "Content-Encoding" = "deflate" then
    (D.flateRead resp.body, ["flate-reader"], ["flate-reader"])
  else (Except.ok resp.body, [], [])

/-- The value/error pair `ReadResponseBody` returns to its caller. -/
def readResponseBody (D : Decoders) (resp : Response) :
    Except String (List Nat) :=
  (readResponseBodyRun D resp).1

/-- The decoder resources constructed during one call. -/
def constructedDecoders (D : Decoders) (resp : Response) : List String :=
  (readResponseBodyRun D resp).2.1

/-- The decoder resources closed before the call returns. -/
def closedDecoders (D : Decoders) (resp : Response) : List String :=
  (readResponseBodyRun D resp).2.2

/-- Trivial decoders used to instantiate witnesses: every stream
decodes to itself. -/
def idDecoders : Decoders :=
  { gzipNew := fun b => Except.ok (Except.ok b),
    brotliRead := fun b => Except.ok b,
    zstdNew := fun b => Except.ok (Except.ok b),
    flateRead := fun b => Except.ok b }


/-! ### Lemmas about the cookie map -/

theorem mem_names {l : List Cookie} {n : String} :
    n ∈ names l ↔ ∃ c, c ∈ l ∧ c.name = n := by
  simp [names]

theorem mem_names_cons {c : Cookie} {l : List Cookie} {n : String} :
    n ∈ names (c :: l) ↔ n = c.name ∨ n ∈ names l := by
  simp only [names, List.map_cons, List.mem_cons]

theorem mem_insertCookie {m : List Cookie} {c x : Cookie} :
    x ∈ insertCookie m c ↔ (x ∈ m ∧ x.name ≠ c.name) ∨ x = c := by
  simp [insertCookie, List.mem_filter]

/-- `find?` by key is unchanged by filtering away another key. -/
theorem find?_filterKey_ne {α : Type} (key : α → String) (m : List α)
    (k n : String) (h : k ≠ n) :
    (m.filter fun x => key x != k).find? (fun x => key x == n) =
      m.find? (fun x => key x == n) := by
  induction m with
  | nil => rfl
  | cons x m ih =>
    by_cases hq : key x = k
    · have hxn : ¬ key x = n := fun hh => h (Eq.trans (Eq.symm hq) hh)
      simp [List.filter_cons, hq, hxn, ih]
      rw [List.find?_cons_of_neg _ (by simp [hxn])]
    · by_cases hx : key x = n
      · simp [List.filter_cons, hq, hx, Ne.symm h]
      · simp [List.filter_cons, hq, hx, ih]

/-- `find?` by key on a list from which that key was filtered away. -/
theorem find?_filterKey_self {α : Type} (key : α → String) (m : List α)
    (k : String) :
    (m.filter fun x => key x != k).find? (fun x => key x == k) = none := by
  rw [List.find?_eq_none]
  intro x hx
  rcases List.mem_filter.mp hx with ⟨-, hq⟩
  rw [bne_iff_ne] at hq
  simp [hq]

theorem mem_names_insertCookie {m : List Cookie} {c : Cookie} {n : String} :
    n ∈ names (insertCookie m c) ↔ n ∈ names m ∨ n = c.name := by
  rw [mem_names]
  constructor
  · rintro ⟨x, hx, rfl⟩
    rcases mem_insertCookie.mp hx with ⟨hm, -⟩ | rfl
    · exact Or.inl (mem_names.mpr ⟨x, hm, rfl⟩)
    · exact Or.inr rfl
  · rintro (hm | rfl)
    · rcases mem_names.mp hm with ⟨x, hx, rfl⟩
      by_cases hxc : x.name = c.name
      · exact ⟨c, mem_insertCookie.mpr (Or.inr rfl), hxc.symm⟩
      · exact ⟨x, mem_insertCookie.mpr (Or.inl ⟨hx, hxc⟩), rfl⟩
    · exact ⟨c, mem_insertCookie.mpr (Or.inr rfl), rfl⟩

theorem nodup_names_insertCookie {m : List Cookie} {c : Cookie}
    (h : (names m).Nodup) : (names (insertCookie m c)).Nodup := by
  have hsub : List.Sublist (names (m.filter fun x => x.name != c.name))
      (names m) :=
    (List.filter_sublist m).map Cookie.name
  have h1 : (names (m.filter fun x => x.name != c.name)).Nodup :=
    List.Nodup.sublist hsub h
  show (names (m.filter (fun x => x.name != c.name) ++ [c])).Nodup
  rw [names, List.map_append]
  refine List.nodup_append.mpr ⟨h1, List.nodup_singleton _, ?_⟩
  intro a ha hb
  rcases List.mem_map.mp ha with ⟨x, hx, rfl⟩
  rcases List.mem_filter.mp hx with ⟨-, hq⟩
  rw [bne_iff_ne] at hq
  rcases List.mem_singleton.mp hb with h
  exact hq h

theorem findCookie_insertCookie_ne {m : List Cookie} {c : Cookie} {n : String}
    (h : c.name ≠ n) : findCookie (insertCookie m c) n = findCookie m n := by
  unfold findCookie insertCookie
  rw [List.find?_append]
  rw [find?_filterKey_ne Cookie.name m c.name n h]
  have h2 : List.find? (fun x => x.name == n) [c] = none := by
    simp [h]
  rw [h2]
  cases m.find? (fun x => x.name == n) <;> rfl

theorem findCookie_insertCookie_self (m : List Cookie) (c : Cookie) :
    findCookie (insertCookie m c) c.name = some c := by
  unfold findCookie insertCookie
  rw [List.find?_append, find?_filterKey_self Cookie.name m c.name]
  simp

theorem mem_of_mem_foldl_insertCookie :
    ∀ (s m : List Cookie) (x : Cookie),
      x ∈ s.foldl insertCookie m → x ∈ m ∨ x ∈ s := by
  intro s
  induction s with
  | nil =>
    intro m x hx
    exact Or.inl hx
  | cons c s ih =>
    intro m x hx
    rw [List.foldl_cons] at hx
    rcases ih (insertCookie m c) x hx with hm | hs
    · rcases mem_insertCookie.mp hm with ⟨hin, -⟩ | rfl
      · exact Or.inl hin
      · exact Or.inr (List.mem_cons_self _ _)
    · exact Or.inr (List.mem_cons_of_mem _ hs)

theorem mem_names_foldl_insertCookie :
    ∀ (s m : List Cookie) (n : String),
      n ∈ names (s.foldl insertCookie m) ↔ n ∈ names m ∨ n ∈ names s := by
  intro s
  induction s with
  | nil =>
    intro m n
    simp [names]
  | cons c s ih =>
    intro m n
    rw [List.foldl_cons, ih, mem_names_insertCookie, mem_names_cons]
    tauto

theorem nodup_names_foldl_insertCookie :
    ∀ (s m : List Cookie), (names m).Nodup →
      (names (s.foldl insertCookie m)).Nodup := by
  intro s
  induction s with
  | nil =>
    intro m h
    exact h
  | cons c s ih =>
    intro m h
    rw [List.foldl_cons]
    exact ih _ (nodup_names_insertCookie h)

theorem findCookie_foldl_insertCookie_of_not_mem :
    ∀ (s m : List Cookie) (n : String), n ∉ names s →
      findCookie (s.foldl insertCookie m) n = findCookie m n := by
  intro s
  induction s with
  | nil =>
    intro m n _
    rfl
  | cons c s ih =>
    intro m n hn
    rw [mem_names_cons] at hn
    push_neg at hn
    obtain ⟨h1, h2⟩ := hn
    rw [List.foldl_cons, ih _ n h2, findCookie_insertCookie_ne (Ne.symm h1)]

theorem findCookie_foldl_insertCookie_of_mem :
    ∀ (s m : List Cookie) (n : String), n ∈ names s →
      ∃ c, c ∈ s ∧ c.name = n ∧
        findCookie (s.foldl insertCookie m) n = some c := by
  intro s
  induction s with
  | nil =>
    intro m n hn
    simp [names] at hn
  | cons c s ih =>
    intro m n hn
    by_cases hs : n ∈ names s
    · obtain ⟨c', hc', hname, hfind⟩ := ih (insertCookie m c) n hs
      refine ⟨c', List.mem_cons_of_mem _ hc', hname, ?_⟩
      rw [List.foldl_cons]
      exact hfind
    · have hcn : n = c.name := by
        rcases mem_names_cons.mp hn with h | h
        · exact h
        · exact absurd h hs
      subst hcn
      refine ⟨c, List.mem_cons_self _ _, rfl, ?_⟩
      rw [List.foldl_cons, findCookie_foldl_insertCookie_of_not_mem s _ _ hs,
        findCookie_insertCookie_self]

theorem any_name_eq_iff {m : List Cookie} {n : String} :
    (m.any fun x => x.name == n) = true ↔ n ∈ names m := by
  rw [List.any_eq_true, mem_names]
  constructor
  · rintro ⟨x, hx, hb⟩
    exact ⟨x, hx, beq_iff_eq.mp hb⟩
  · rintro ⟨x, hx, hb⟩
    exact ⟨x, hx, beq_iff_eq.mpr hb⟩

theorem foldl_addIfAbsent_eq_append :
    ∀ (cs m : List Cookie), ∃ l, cs.foldl addIfAbsent m = m ++ l ∧
      ∀ x ∈ l, x ∈ cs ∧ x.name ∉ names m := by
  intro cs
  induction cs with
  | nil =>
    intro m
    exact ⟨[], by simp, by simp⟩
  | cons c cs ih =>
    intro m
    rw [List.foldl_cons]
    by_cases hc : (m.any fun x => x.name == c.name) = true
    · have ha : addIfAbsent m c = m := by
        unfold addIfAbsent
        rw [if_pos hc]
      rw [ha]
      obtain ⟨l, hl, hprop⟩ := ih m
      exact ⟨l, hl, fun x hx =>
        ⟨List.mem_cons_of_mem _ (hprop x hx).1, (hprop x hx).2⟩⟩
    · have ha : addIfAbsent m c = m ++ [c] := by
        unfold addIfAbsent
        rw [if_neg hc]
      rw [ha]
      obtain ⟨l, hl, hprop⟩ := ih (m ++ [c])
      refine ⟨c :: l, by rw [hl]; simp, ?_⟩
      intro x hx
      rcases List.mem_cons.mp hx with rfl | hx'
      · refine ⟨List.mem_cons_self _ _, fun hmem => hc ?_⟩
        exact any_name_eq_iff.mpr hmem
      · obtain ⟨hxcs, hxname⟩ := hprop x hx'
        refine ⟨List.mem_cons_of_mem _ hxcs, fun hmem => hxname ?_⟩
        show x.name ∈ names (m ++ [c])
        rw [names, List.map_append]
        exact List.mem_append_left _ hmem

theorem mem_names_foldl_addIfAbsent :
    ∀ (cs m : List Cookie) (n : String),
      n ∈ names (cs.foldl addIfAbsent m) ↔ n ∈ names m ∨ n ∈ names cs := by
  intro cs
  induction cs with
  | nil =>
    intro m n
    simp [names]
  | cons c cs ih =>
    intro m n
    rw [List.foldl_cons, mem_names_cons]
    by_cases hc : (m.any fun x => x.name == c.name) = true
    · have ha : addIfAbsent m c = m := by
        unfold addIfAbsent
        rw [if_pos hc]
      rw [ha, ih]
      have hcm : c.name ∈ names m := any_name_eq_iff.mp hc
      constructor
      · rintro (h | h)
        · exact Or.inl h
        · exact Or.inr (Or.inr h)
      · rintro (h | h | h)
        · exact Or.inl h
        · rw [h] at *
          exact Or.inl hcm
        · exact Or.inr h
    · have ha : addIfAbsent m c = m ++ [c] := by
        unfold addIfAbsent
        rw [if_neg hc]
      rw [ha, ih]
      have hmc : ∀ k, k ∈ names (m ++ [c]) ↔ k ∈ names m ∨ k = c.name := by
        intro k
        simp [names]
      rw [hmc]
      tauto

theorem nodup_names_foldl_addIfAbsent :
    ∀ (cs m : List Cookie), (names m).Nodup →
      (names (cs.foldl addIfAbsent m)).Nodup := by
  intro cs
  induction cs with
  | nil =>
    intro m h
    exact h
  | cons c cs ih =>
    intro m h
    rw [List.foldl_cons]
    by_cases hc : (m.any fun x => x.name == c.name) = true
    · have ha : addIfAbsent m c = m := by
        unfold addIfAbsent
        rw [if_pos hc]
      rw [ha]
      exact ih m h
    · have ha : addIfAbsent m c = m ++ [c] := by
        unfold addIfAbsent
        rw [if_neg hc]
      rw [ha]
      apply ih
      have hcm : c.name ∉ names m := fun hmem => hc (any_name_eq_iff.mpr hmem)
      show (names (m ++ [c])).Nodup
      rw [names, List.map_append]
      refine List.nodup_append.mpr ⟨h, List.nodup_singleton _, ?_⟩
      intro a ha2 hb
      rcases List.mem_singleton.mp hb with h'
      rw [h'] at ha2
      exact hcm ha2

theorem findCookie_foldl_addIfAbsent (cs m : List Cookie) (n : String)
    (c : Cookie) (h : findCookie m n = some c) :
    findCookie (cs.foldl addIfAbsent m) n = some c := by
  obtain ⟨l, hl, -⟩ := foldl_addIfAbsent_eq_append cs m
  rw [hl]
  unfold findCookie at h ⊢
  rw [List.find?_append, h]
  rfl

theorem foldl_addIfAbsent_of_nodup :
    ∀ (cs m : List Cookie), (∀ x ∈ cs, x.name ∉ names m) →
      (names cs).Nodup → cs.foldl addIfAbsent m = m ++ cs := by
  intro cs
  induction cs with
  | nil =>
    intro m _ _
    simp
  | cons c cs ih =>
    intro m hdisj hnodup
    rw [List.foldl_cons]
    have hc : ¬ (m.any fun x => x.name == c.name) = true := fun hany =>
      hdisj c (List.mem_cons_self _ _) (any_name_eq_iff.mp hany)
    have ha : addIfAbsent m c = m ++ [c] := by
      unfold addIfAbsent
      rw [if_neg hc]
    rw [ha]
    have hnames : (names (c :: cs)).Nodup := hnodup
    rw [names, List.map_cons, List.nodup_cons] at hnames
    obtain ⟨hcn, htail⟩ := hnames
    have h2 := ih (m ++ [c]) ?_ htail
    · rw [h2]
      simp
    · intro x hx hmem
      show False
      have : x.name ∈ names m ∨ x.name = c.name := by
        revert hmem
        show x.name ∈ names (m ++ [c]) → _
        rw [names, List.map_append]
        intro hmem
        rcases List.mem_append.mp hmem with h' | h'
        · exact Or.inl h'
        · exact Or.inr (List.mem_singleton.mp h')
      rcases this with h' | h'
      · exact hdisj x (List.mem_cons_of_mem _ hx) h'
      · apply hcn
        rw [← h']
        exact List.mem_map.mpr ⟨x, hx, rfl⟩

/-! ### Lemmas about the header map -/

theorem headerValue_setHeader_same (hs : List (String × String))
    (k v : String) : headerValue (setHeader hs k v) k = v := by
  unfold headerValue setHeader
  rw [List.find?_append, find?_filterKey_self Prod.fst hs k]
  simp

theorem headerValue_setHeader_ne (hs : List (String × String))
    (k v k' : String) (h : k' ≠ k) :
    headerValue (setHeader hs k v) k' = headerValue hs k' := by
  unfold headerValue setHeader
  rw [List.find?_append, find?_filterKey_ne Prod.fst hs k k' (Ne.symm h)]
  have h2 : List.find? (fun p => p.1 == k') [(k, v)] = none := by
    simp [Ne.symm h]
  rw [h2]
  cases hs.find? (fun p => p.1 == k') <;> rfl

/-! ### The claims -/

/-- C1: for every server response cookie list and caller cookie list, the
merged list returned by `Request`, `MultipartRequest` and
`RequestWithoutBody` has exactly one entry per cookie name (its names are
duplicate-free and are exactly the names of the two inputs), for every
name present in both lists the merged entry is a server cookie of that
name, and every merged entry is either a server cookie or a caller
cookie whose name is absent from the server list. -/
theorem cookie_merge_server_priority (s cs : List Cookie) :
    (names (mergeCookies s cs)).Nodup
    ∧ (∀ n, n ∈ names (mergeCookies s cs) ↔ n ∈ names s ∨ n ∈ names cs)
    ∧ (∀ n, n ∈ names s → n ∈ names cs →
        ∃ c, c ∈ s ∧ c.name = n ∧ findCookie (mergeCookies s cs) n = some c)
    ∧ (∀ c, c ∈ mergeCookies s cs → c ∈ s ∨ (c ∈ cs ∧ c.name ∉ names s))
    ∧ (∀ (resp : Response) (method host endpoint : String)
        (reqBody : List Nat) (headers : List (String × String))
        (authorization formData boundary : String), resp.cookies = s →
        (requestOp method host endpoint reqBody cs headers authorization
            resp).2 = mergeCookies s cs
        ∧ (multipartOp method host endpoint reqBody formData cs headers
            authorization boundary resp).2 = mergeCookies s cs
        ∧ (requestWithoutBodyOp method host endpoint headers cs authorization
            resp).2 = mergeCookies s cs) := by
  have hlink : ∀ (resp : Response) (method host endpoint : String)
      (reqBody : List Nat) (headers : List (String × String))
      (authorization formData boundary : String), resp.cookies = s →
      (requestOp method host endpoint reqBody cs headers authorization
          resp).2 = mergeCookies s cs
      ∧ (multipartOp method host endpoint reqBody formData cs headers
          authorization boundary resp).2 = mergeCookies s cs
      ∧ (requestWithoutBodyOp method host endpoint headers cs authorization
          resp).2 = mergeCookies s cs := by
    intro resp method host endpoint reqBody headers authorization
      formData boundary hresp
    refine ⟨?_, ?_, ?_⟩ <;>
      simp [requestOp, multipartOp, requestWithoutBodyOp, hresp]
  by_cases hcs : cs = []
  · subst hcs
    have hmerge : mergeCookies s [] = s.foldl insertCookie [] := by
      simp [mergeCookies]
    rw [hmerge]
    refine ⟨?_, ?_, ?_, ?_, ?_⟩
    · exact nodup_names_foldl_insertCookie s [] (by simp [names])
    · intro n
      rw [mem_names_foldl_insertCookie]
      simp [names]
    · intro n _ hn2
      simp [names] at hn2
    · intro c hc
      rcases mem_of_mem_foldl_insertCookie s [] c hc with h | h
      · simp at h
      · exact Or.inl h
    · rw [← hmerge]
      exact hlink
  · have hmerge : mergeCookies s cs =
        cs.foldl addIfAbsent (s.foldl insertCookie []) := by
      simp only [mergeCookies]
      rw [if_pos hcs]
    rw [hmerge]
    refine ⟨?_, ?_, ?_, ?_, ?_⟩
    · exact nodup_names_foldl_addIfAbsent cs _
        (nodup_names_foldl_insertCookie s [] (by simp [names]))
    · intro n
      rw [mem_names_foldl_addIfAbsent, mem_names_foldl_insertCookie]
      simp [names]
    · intro n hn1 _
      obtain ⟨c, hc, hname, hfind⟩ :=
        findCookie_foldl_insertCookie_of_mem s [] n hn1
      exact ⟨c, hc, hname, findCookie_foldl_addIfAbsent cs _ n c hfind⟩
    · intro c hc
      obtain ⟨l, hl, hprop⟩ :=
        foldl_addIfAbsent_eq_append cs (s.foldl insertCookie [])
      rw [hl] at hc
      rcases List.mem_append.mp hc with h | h
      · rcases mem_of_mem_foldl_insertCookie s [] c h with h' | h'
        · simp at h'
        · exact Or.inl h'
      · obtain ⟨hccs, hcname⟩ := hprop c h
        refine Or.inr ⟨hccs, fun hmem => hcname ?_⟩
        rw [mem_names_foldl_insertCookie]
        exact Or.inr hmem
    · rw [← hmerge]
      exact hlink

/-- C1 witness: at a concrete overlapping input, the merged binding of
`sid` is the server cookie. -/
theorem cookie_merge_server_priority_witness :
    findCookie (mergeCookies [⟨"sid", "srv"⟩] [⟨"sid", "cli"⟩]) "sid" =
      some ⟨"sid", "srv"⟩ := by
  obtain ⟨c, hc, -, hfind⟩ :=
    (cookie_merge_server_priority [⟨"sid", "srv"⟩] [⟨"sid", "cli"⟩]).2.2.1
      "sid" (by decide) (by decide)
  rw [hfind, List.mem_singleton.mp hc]

/-- C5 counterexample: for the non-empty caller list
`[a=1, a=2]` (two caller cookies sharing a name), merging with an empty
server cookie list drops the second cookie, so the result is not the
caller's list up to reordering. -/
theorem merge_empty_server_cex :
    mergeCookies [] [⟨"a", "1"⟩, ⟨"a", "2"⟩] = [⟨"a", "1"⟩]
    ∧ ¬ List.Perm (mergeCookies [] [⟨"a", "1"⟩, ⟨"a", "2"⟩])
        [⟨"a", "1"⟩, ⟨"a", "2"⟩] := by
  decide

/-- C5 as amended: for every non-empty caller cookie list whose names are
pairwise distinct, merging with an empty server cookie list yields
exactly the caller's cookies (here even in the caller's order). -/
theorem merge_empty_server_identity (cs : List Cookie) (h1 : cs ≠ [])
    (h2 : (names cs).Nodup) : mergeCookies [] cs = cs := by
  have h3 := foldl_addIfAbsent_of_nodup cs []
    (by intro x _ hx; simp [names] at hx) h2
  simp only [mergeCookies]
  rw [if_pos h1]
  simpa using h3

/-- C5 witness: a concrete two-cookie caller list with distinct names
passes through the merge unchanged. -/
theorem merge_empty_server_identity_witness :
    mergeCookies [] [⟨"a", "1"⟩, ⟨"b", "2"⟩] = [⟨"a", "1"⟩, ⟨"b", "2"⟩] :=
  merge_empty_server_identity [⟨"a", "1"⟩, ⟨"b", "2"⟩] (by decide) (by decide)

/-- C3: in all three builders the `Authorization` header is set verbatim
to the caller's string and every caller cookie is attached exactly when
the caller cookie list is non-empty; with a nil/empty list the
constructed request carries only the extra headers (and, for multipart,
the generated `Content-Type`), no cookies, and does not depend on the
`authorization` argument at all. -/
theorem auth_header_iff_cookies (method host endpoint : String)
    (reqBody : List Nat) (cookies : List Cookie)
    (headers : List (String × String)) (authorization : String)
    (formData boundary : String) :
    (cookies ≠ [] →
      (headerValue (requestReq method host endpoint reqBody cookies headers
            authorization).headers "Authorization" = authorization
        ∧ (requestReq method host endpoint reqBody cookies headers
            authorization).cookies = cookies)
      ∧ (headerValue (multipartReq method host endpoint reqBody formData
            cookies headers authorization boundary).headers "Authorization" =
          authorization
        ∧ (multipartReq method host endpoint reqBody formData cookies headers
            authorization boundary).cookies = cookies)
      ∧ (headerValue (requestWithoutBodyReq method host endpoint headers
            cookies authorization).headers "Authorization" = authorization
        ∧ (requestWithoutBodyReq method host endpoint headers cookies
            authorization).cookies = cookies))
    ∧ (cookies = [] →
      requestReq method host endpoint reqBody cookies headers authorization =
        { method := method, url := host ++ endpoint, body := some reqBody,
          headers := applyHeaders [] headers, cookies := [] }
      ∧ multipartReq method host endpoint reqBody formData cookies headers
          authorization boundary =
        { method := method, url := host ++ endpoint,
          body := some (multipartBody boundary formData reqBody),
          headers := setHeader (applyHeaders [] headers) "Content-Type"
            (formDataContentType boundary),
          cookies := [] }
      ∧ requestWithoutBodyReq method host endpoint headers cookies
          authorization =
        { method := method, url := host ++ endpoint, body := none,
          headers := applyHeaders [] headers, cookies := [] }) := by
  constructor
  · intro hc
    have h1 : requestReq method host endpoint reqBody cookies headers
        authorization =
        { method := method, url := host ++ endpoint, body := some reqBody,
          headers := setHeader (applyHeaders [] headers) "Authorization"
            authorization,
          cookies := cookies } := by
      simp only [requestReq]
      rw [if_pos hc]
    have h2 : multipartReq method host endpoint reqBody formData cookies
        headers authorization boundary =
        { method := method, url := host ++ endpoint,
          body := some (multipartBody boundary formData reqBody),
          headers := setHeader (setHeader (applyHeaders [] headers)
            "Content-Type" (formDataContentType boundary)) "Authorization"
            authorization,
          cookies := cookies } := by
      simp only [multipartReq]
      rw [if_pos hc]
    have h3 : requestWithoutBodyReq method host endpoint headers cookies
        authorization =
        { method := method, url := host ++ endpoint, body := none,
          headers := setHeader (applyHeaders [] headers) "Authorization"
            authorization,
          cookies := cookies } := by
      simp only [requestWithoutBodyReq]
      rw [if_pos hc]
    rw [h1, h2, h3]
    exact ⟨⟨headerValue_setHeader_same _ _ _, rfl⟩,
      ⟨headerValue_setHeader_same _ _ _, rfl⟩,
      ⟨headerValue_setHeader_same _ _ _, rfl⟩⟩
  · intro hc
    subst hc
    refine ⟨?_, ?_, ?_⟩
    · simp only [requestReq]
      rw [if_neg (by simp)]
    · simp only [multipartReq]
      rw [if_neg (by simp)]
    · simp only [requestWithoutBodyReq]
      rw [if_neg (by simp)]

/-- C3 witness: with one cookie the `Authorization` header carries the
caller's token; with no cookies the request reduces to the bare record
with only the extra headers. -/
theorem auth_header_iff_cookies_witness :
    headerValue (requestReq "POST" "h" "/e" [1] [⟨"sid", "s"⟩]
        [("X-A", "v")] "tok").headers "Authorization" = "tok"
    ∧ requestWithoutBodyReq "GET" "h" "/e" [("X-A", "v")] [] "tok" =
        { method := "GET", url := "h" ++ "/e", body := none,
          headers := applyHeaders [] [("X-A", "v")], cookies := [] } :=
  ⟨((auth_header_iff_cookies "POST" "h" "/e" [1] [⟨"sid", "s"⟩]
      [("X-A", "v")] "tok" "f" "b").1 (by decide)).1.1,
    ((auth_header_iff_cookies "GET" "h" "/e" [1] [] [("X-A", "v")] "tok"
      "f" "b").2 rfl).2.2⟩

/-- C7: `RequestWithoutBody` always constructs a request with no body. -/
theorem requestWithoutBody_no_body (method host endpoint : String)
    (headers : List (String × String)) (cookies : List Cookie)
    (authorization : String) :
    (requestWithoutBodyReq method host endpoint headers cookies
        authorization).body = none := by
  by_cases hc : cookies ≠ []
  · simp only [requestWithoutBodyReq]
    rw [if_pos hc]
  · simp only [requestWithoutBodyReq]
    rw [if_neg hc]

/-- C9: `MultipartRequest` sets `Content-Type` to the generated multipart
value after the caller's extra headers, so any caller-supplied
`Content-Type` is overridden. -/
theorem multipart_content_type_override (method host endpoint : String)
    (requestBody : List Nat) (formData : String) (cookies : List Cookie)
    (headers : List (String × String)) (authorization boundary : String) :
    headerValue (multipartReq method host endpoint requestBody formData
        cookies headers authorization boundary).headers "Content-Type" =
      formDataContentType boundary := by
  by_cases hc : cookies ≠ []
  · simp only [multipartReq]
    rw [if_pos hc]
    show headerValue (setHeader (setHeader (applyHeaders [] headers)
      "Content-Type" (formDataContentType boundary)) "Authorization"
      authorization) "Content-Type" = formDataContentType boundary
    rw [headerValue_setHeader_ne _ _ _ _ (by decide)]
    exact headerValue_setHeader_same _ _ _
  · simp only [multipartReq]
    rw [if_neg hc]
    exact headerValue_setHeader_same _ _ _

/-- C10: `SignIn` attaches only the extra headers — no cookies and no
`Authorization` header — and returns the server response's cookies
directly, without any merge. -/
theorem signIn_headers_only (method host endpoint : String)
    (requestBody : List Nat) (headers : List (String × String))
    (resp : Response) :
    (signInReq method host endpoint requestBody headers).headers =
      applyHeaders [] headers
    ∧ (signInReq method host endpoint requestBody headers).cookies = []
    ∧ signInOp method host endpoint requestBody headers resp =
      (resp, resp.cookies) :=
  ⟨rfl, rfl, rfl⟩

/-- C2: whenever the library decoders invert the corresponding encoders
on a compressed payload (their documented round-trip contract), a
response carrying that payload under `Content-Encoding` gzip / br /
zstd / deflate comes back from `ReadResponseBody` as exactly the
original bytes. -/
theorem readBody_roundtrip (D : Decoders) (p : List Nat)
    (cg cb cz cd : List Nat) (ks : List Cookie)
    (hsg hsb hsz hsd : List (String × String))
    (eg : headerValue hsg "Content-Encoding" = "gzip")
    (eb : headerValue hsb "Content-Encoding" = "br")
    (ez : headerValue hsz "Content-Encoding" = "zstd")
    (ed : headerValue hsd "Content-Encoding" = "deflate")
    (hg : D.gzipNew cg = Except.ok (Except.ok p))
    (hb : D.brotliRead cb = Except.ok p)
    (hz : D.zstdNew cz = Except.ok (Except.ok p))
    (hd : D.flateRead cd = Except.ok p) :
    readResponseBody D { headers := hsg, body := cg, cookies := ks } =
      Except.ok p
    ∧ readResponseBody D { headers := hsb, body := cb, cookies := ks } =
      Except.ok p
    ∧ readResponseBody D { headers := hsz, body := cz, cookies := ks } =
      Except.ok p
    ∧ readResponseBody D { headers := hsd, body := cd, cookies := ks } =
      Except.ok p := by
  refine ⟨?_, ?_, ?_, ?_⟩
  · unfold readResponseBody readResponseBodyRun
    simp only
    rw [eg, if_pos rfl, hg]
  · unfold readResponseBody readResponseBodyRun
    simp only
    rw [eb, if_neg (by decide), if_pos rfl, hb]
  · unfold readResponseBody readResponseBodyRun
    simp only
    rw [ez, if_neg (by decide), if_neg (by decide), if_pos rfl, hz]
  · unfold readResponseBody readResponseBodyRun
    simp only
    rw [ed, if_neg (by decide), if_neg (by decide), if_neg (by decide),
      if_pos rfl, hd]

/-- C2 witness: with decoders instantiated to the identity round trip,
all four encodings return the payload unchanged. -/
theorem readBody_roundtrip_witness :
    readResponseBody idDecoders
      { headers := [("Content-Encoding", "gzip")], body := [3, 1],
        cookies := [] } = Except.ok [3, 1]
    ∧ readResponseBody idDecoders
      { headers := [("Content-Encoding", "br")], body := [3, 1],
        cookies := [] } = Except.ok [3, 1]
    ∧ readResponseBody idDecoders
      { headers := [("Content-Encoding", "zstd")], body := [3, 1],
        cookies := [] } = Except.ok [3, 1]
    ∧ readResponseBody idDecoders
      { headers := [("Content-Encoding", "deflate")], body := [3, 1],
        cookies := [] } = Except.ok [3, 1] :=
  readBody_roundtrip idDecoders [3, 1] [3, 1] [3, 1] [3, 1] [3, 1] []
    [("Content-Encoding", "gzip")] [("Content-Encoding", "br")]
    [("Content-Encoding", "zstd")] [("Content-Encoding", "deflate")]
    (by decide) (by decide) (by decide) (by decide) rfl rfl rfl rfl

/-- C4: a gzip construction failure (invalid stream header) and a zstd
decoder construction failure are returned by `ReadResponseBody` as an
ordinary error value — the function's return type, not a fatal test
assertion (`require`) — with no decoded bytes. -/
theorem readBody_decode_error_returned (D : Decoders) (respG respZ : Response)
    (eG eZ : String)
    (hgenc : headerValue respG.headers "Content-Encoding" = "gzip")
    (hgerr : D.gzipNew respG.body = Except.error eG)
    (hzenc : headerValue respZ.headers "Content-Encoding" = "zstd")
    (hzerr : D.zstdNew respZ.body = Except.error eZ) :
    readResponseBody D respG = Except.error eG
    ∧ readResponseBody D respZ = Except.error eZ := by
  constructor
  · unfold readResponseBody readResponseBodyRun
    rw [hgenc, if_pos rfl, hgerr]
  · unfold readResponseBody readResponseBodyRun
    rw [hzenc, if_neg (by decide), if_neg (by decide), if_pos rfl, hzerr]

/-- Decoders whose gzip and zstd constructors fail, used to witness the
error paths. -/
def errDecoders : Decoders :=
  { gzipNew := fun _ => Except.error "gzip: invalid header",
    brotliRead := fun b => Except.ok b,
    zstdNew := fun _ => Except.error "zstd: construction failed",
    flateRead := fun b => Except.ok b }

/-- C4 witness: concrete gzip and zstd responses whose decoder
construction fails produce the error as an ordinary return value. -/
theorem readBody_decode_error_returned_witness :
    readResponseBody errDecoders
      { headers := [("Content-Encoding", "gzip")], body := [0],
        cookies := [] } = Except.error "gzip: invalid header"
    ∧ readResponseBody errDecoders
      { headers := [("Content-Encoding", "zstd")], body := [0],
        cookies := [] } = Except.error "zstd: construction failed" :=
  readBody_decode_error_returned errDecoders
    { headers := [("Content-Encoding", "gzip")], body := [0], cookies := [] }
    { headers := [("Content-Encoding", "zstd")], body := [0], cookies := [] }
    "gzip: invalid header" "zstd: construction failed"
    (by decide) rfl (by decide) rfl

/-- C6: when `Content-Encoding` is absent (`Get` yields `""`) or any
value other than gzip, br, zstd, deflate, `ReadResponseBody` returns the
body bytes unmodified. -/
theorem readBody_passthrough (D : Decoders) (resp : Response)
    (h1 : headerValue resp.headers "Content-Encoding" ≠ "gzip")
    (h2 : headerValue resp.headers "Content-Encoding" ≠ "br")
    (h3 : headerValue resp.headers "Content-Encoding" ≠ "zstd")
    (h4 : headerValue resp.headers "Content-Encoding" ≠ "deflate") :
    readResponseBody D resp = Except.ok resp.body := by
  unfold readResponseBody readResponseBodyRun
  rw [if_neg h1, if_neg h2, if_neg h3, if_neg h4]

/-- C6 witness: a response with no `Content-Encoding` header passes
through untouched. -/
theorem readBody_passthrough_witness :
    readResponseBody idDecoders
      { headers := [], body := [9, 9], cookies := [] } = Except.ok [9, 9] :=
  readBody_passthrough idDecoders
    { headers := [], body := [9, 9], cookies := [] }
    (by decide) (by decide) (by decide) (by decide)

/-- C8 (code bug in the source): on the `br` branch `ReadResponseBody`
constructs a `BrotliReadCloser` — a wrapper whose only purpose is to
supply a `Close` method — but, unlike the gzip, zstd and deflate
branches, never registers `defer reader.Close()`, so the constructed
decoder resource is not released on any exit path of that branch. -/
theorem brotli_decoder_never_closed :
    constructedDecoders idDecoders
      { headers := [("Content-Encoding", "br")], body := [1], cookies := [] }
      = ["brotli-reader"]
    ∧ closedDecoders idDecoders
      { headers := [("Content-Encoding", "br")], body := [1], cookies := [] }
      = [] :=
  ⟨rfl, rfl⟩
